import Mathlib

/-!
Shallow embedding of the embedding/retrieval subsystem of the
Ceipal-Call-Analysis-Demo-System repository (a company/project
"knowledge brain" application), together with theorems settling the
specification claims about it.

Texts are modelled as `List Char` (JavaScript strings), embedding
vectors as `List ℚ`, and the two embedding tables as lists of row
structures mirroring the columns each insert writes.
-/

/-- Characters treated as whitespace by JavaScript `String.prototype.trim`
(restricted to the characters that occur in this code base). -/
def isWS (c : Char) : Bool :=
  c = ' ' || c = '\n' || c = '\t' || c = '\r'

/-- `text.trimStart`: drop leading whitespace. -/
def trimLeft (l : List Char) : List Char :=
  l.dropWhile isWS

/-- Drop trailing whitespace. -/
def trimRight (l : List Char) : List Char :=
  (l.reverse.dropWhile isWS).reverse

/-- JavaScript `String.prototype.trim`: drop leading and trailing whitespace. -/
def trim (l : List Char) : List Char :=
  trimRight (trimLeft l)

/-- The paragraph separator `"\n\n"` used by `chunkText` / `chunkProjectText`
in `src/lib/projectEmbeddings.ts`. -/
def nn : List Char := ['\n', '\n']

/-- The separator `". "` appended between sentences by the sentence-based
`chunkText` of `supabase/functions/generate-project-embedding/index.ts`. -/
def dotSpace : List Char := ['.', ' ']

/-- JavaScript `text.split("\n\n")`: leftmost, non-overlapping split on the
two-character separator. -/
def splitNN : List Char → List (List Char)
  | [] => [[]]
  | [c] => [[c]]
  | c1 :: c2 :: rest =>
    if c1 = '\n' ∧ c2 = '\n' then
      [] :: splitNN rest
    else
      match splitNN (c2 :: rest) with
      | [] => [[c1]]
      | p :: ps => (c1 :: p) :: ps

/-- Rejoin parts with the `"\n\n"` separator (JavaScript `parts.join("\n\n")`). -/
def joinNN : List (List Char) → List Char
  | [] => []
  | [p] => p
  | p :: q :: ps => p ++ nn ++ joinNN (q :: ps)

/-- The paragraph-accumulation loop shared by `chunkText` and
`chunkProjectText` in `src/lib/projectEmbeddings.ts` (lines 412-431 and
231-250): a chunk is flushed when adding the next paragraph would exceed
`maxChunkSize` and the buffer is nonempty; each paragraph is appended to the
buffer followed by `"\n\n"`; the trailing buffer is flushed iff its trim is
nonempty. -/
def chunkLoop (maxChunkSize : Nat) : List (List Char) → List Char → List (List Char)
  | [], currentChunk =>
    if trim currentChunk ≠ [] then [trim currentChunk] else []
  | paragraph :: rest, currentChunk =>
    if currentChunk.length + paragraph.length > maxChunkSize ∧ currentChunk ≠ [] then
      trim currentChunk :: chunkLoop maxChunkSize rest (paragraph ++ nn)
    else
      chunkLoop maxChunkSize rest (currentChunk ++ paragraph ++ nn)

/-- `chunkText` of `src/lib/projectEmbeddings.ts` (lines 412-431): split on
blank lines and accumulate paragraphs into chunks of soft-bounded size. -/
def chunkText (text : List Char) (maxChunkSize : Nat := 1000) : List (List Char) :=
  chunkLoop maxChunkSize (splitNN text) []

/-- `chunkProjectText` of `src/lib/projectEmbeddings.ts` (lines 231-250);
its body is identical to `chunkText`. -/
def chunkProjectText (text : List Char) (maxChunkSize : Nat := 1000) : List (List Char) :=
  chunkLoop maxChunkSize (splitNN text) []

/-- Characters matched by `[.!?]` in the sentence-splitting regex of the
batch-job `chunkText`. -/
def isPunct (c : Char) : Bool :=
  c = '.' || c = '!' || c = '?'

lemma length_dropWhile_le (p : Char → Bool) (l : List Char) :
    (l.dropWhile p).length ≤ l.length :=
  (List.dropWhile_suffix p).sublist.length_le

/-- Recursion kernel for `splitSent`, structurally recursive on a fuel
bound; every step consumes at least one character, so a fuel of
`l.length + 1` always suffices. -/
def splitSentAux : Nat → List Char → List (List Char)
  | 0, _ => [[]]
  | Nat.succ fuel, l =>
    match l with
    | [] => [[]]
    | c :: rest =>
      if isPunct c then
        match rest.dropWhile isPunct with
        | [] => [c :: rest.takeWhile isPunct]
        | w :: r2 =>
          if isWS w then
            [] :: splitSentAux fuel (r2.dropWhile isWS)
          else
            match splitSentAux fuel (w :: r2) with
            | [] => [c :: rest.takeWhile isPunct]
            | p :: qs => (c :: (rest.takeWhile isPunct ++ p)) :: qs
      else
        match splitSentAux fuel rest with
        | [] => [[c]]
        | p :: qs => (c :: p) :: qs

/-- JavaScript `text.split(/[.!?]+\s+/)`: a separator is a maximal run of
sentence punctuation immediately followed by at least one whitespace
character; the separator extends over the whole whitespace run. -/
def splitSent (l : List Char) : List (List Char) :=
  splitSentAux (l.length + 1) l

/-- The sentence-accumulation loop of the batch-job `chunkText`
(`supabase/functions/generate-project-embedding/index.ts` lines 328-348 and
the identical copy in the project regeneration function): a sentence is
appended, followed by `". "`, whenever the buffer plus the sentence stays
within `maxLength`; otherwise the nonempty buffer is flushed first. -/
def chunkLoopS (maxLength : Nat) : List (List Char) → List Char → List (List Char)
  | [], currentChunk =>
    if currentChunk ≠ [] then [trim currentChunk] else []
  | sentence :: rest, currentChunk =>
    if (currentChunk ++ sentence).length ≤ maxLength then
      chunkLoopS maxLength rest (currentChunk ++ sentence ++ dotSpace)
    else
      (if currentChunk ≠ [] then [trim currentChunk] else []) ++
        chunkLoopS maxLength rest (sentence ++ dotSpace)

/-- The sentence-based `chunkText` of
`supabase/functions/generate-project-embedding/index.ts` (lines 328-348):
a text no longer than `maxLength` is returned whole as a single chunk;
otherwise it is split at sentence boundaries and re-accumulated. -/
def chunkTextS (text : List Char) (maxLength : Nat := 1000) : List (List Char) :=
  if text.length ≤ maxLength then [text]
  else chunkLoopS maxLength (splitSent text) []

/-! ### Facts about `trim`, `splitNN` and `joinNN` -/

lemma dropWhile_append_of_forall {p : Char → Bool} {a : List Char}
    (b : List Char) (h : ∀ c ∈ a, p c = true) :
    List.dropWhile p (a ++ b) = List.dropWhile p b := by
  induction a with
  | nil => rfl
  | cons c t ih =>
    have hc : p c = true := h c (by simp)
    simp only [List.cons_append, List.dropWhile_cons_of_pos hc]
    exact ih fun x hx => h x (by simp [hx])

lemma dropWhile_append_of_ne_nil {p : Char → Bool} {a : List Char}
    (b : List Char) (hne : List.dropWhile p a ≠ []) :
    List.dropWhile p (a ++ b) = List.dropWhile p a ++ b := by
  induction a with
  | nil => exact absurd rfl hne
  | cons c t ih =>
    cases hc : p c with
    | true =>
      rw [List.dropWhile_cons_of_pos hc] at hne
      simp only [List.cons_append, List.dropWhile_cons_of_pos hc,
        List.dropWhile_cons_of_pos hc]
      exact ih hne
    | false =>
      have hc' : ¬ p c = true := by simp [hc]
      simp [List.cons_append, List.dropWhile_cons_of_neg hc']

lemma trimRight_append_ws {w : List Char} (l : List Char)
    (h : ∀ c ∈ w, isWS c = true) : trimRight (l ++ w) = trimRight l := by
  unfold trimRight
  rw [List.reverse_append, dropWhile_append_of_forall _
    (fun c hc => h c (List.mem_reverse.mp hc))]

lemma trimRight_fix_append {c : List Char} (a : List Char)
    (hfix : trimRight c = c) (hne : c ≠ []) : trimRight (a ++ c) = a ++ c := by
  unfold trimRight at *
  have hfix' : List.dropWhile isWS c.reverse = c.reverse := by
    have h2 := congrArg List.reverse hfix
    simpa using h2
  rw [List.reverse_append, dropWhile_append_of_ne_nil _ (by
    rw [hfix']; simpa using hne)]
  rw [hfix']
  simp

lemma length_trimRight_le (l : List Char) : (trimRight l).length ≤ l.length := by
  unfold trimRight
  simpa using length_dropWhile_le isWS l.reverse

lemma length_trimLeft_le (l : List Char) : (trimLeft l).length ≤ l.length :=
  length_dropWhile_le isWS l

lemma length_trim_le (l : List Char) : (trim l).length ≤ l.length :=
  le_trans (length_trimRight_le _) (length_trimLeft_le _)

lemma trim_append_ws {w : List Char} (l : List Char)
    (h : ∀ c ∈ w, isWS c = true) : trim (l ++ w) = trim l := by
  unfold trim trimLeft
  cases hd : List.dropWhile isWS l with
  | nil =>
    have hall : ∀ c ∈ l, isWS c = true := List.dropWhile_eq_nil_iff.mp hd
    rw [dropWhile_append_of_forall _ hall, List.dropWhile_eq_nil_iff.mpr h]
  | cons c t =>
    rw [dropWhile_append_of_ne_nil _ (by rw [hd]; simp), hd]
    rw [← hd]
    exact trimRight_append_ws _ h

lemma nn_all_ws : ∀ c ∈ nn, isWS c = true := by decide

lemma trim_append_nn (l : List Char) : trim (l ++ nn) = trim l :=
  trim_append_ws l nn_all_ws

lemma joinNN_cons_of_ne_nil (p : List Char) {ps : List (List Char)}
    (h : ps ≠ []) : joinNN (p :: ps) = p ++ nn ++ joinNN ps := by
  cases ps with
  | nil => exact absurd rfl h
  | cons q qs => rfl

lemma joinNN_append {a b : List (List Char)} (ha : a ≠ []) (hb : b ≠ []) :
    joinNN (a ++ b) = joinNN a ++ nn ++ joinNN b := by
  induction a with
  | nil => exact absurd rfl ha
  | cons p t ih =>
    cases t with
    | nil =>
      rw [List.cons_append, List.nil_append, joinNN_cons_of_ne_nil p hb]
      rfl
    | cons q qs =>
      have ht : q :: qs ≠ [] := by simp
      have h2 : joinNN ((q :: qs) ++ b) = joinNN (q :: qs) ++ nn ++ joinNN b :=
        ih ht
      have h3 : (p :: q :: qs) ++ b = p :: ((q :: qs) ++ b) := rfl
      rw [h3, joinNN_cons_of_ne_nil p (by simp), h2,
        joinNN_cons_of_ne_nil p ht]
      simp

lemma splitNN_ne_nil (l : List Char) : splitNN l ≠ [] := by
  match l with
  | [] => simp [splitNN]
  | [c] => simp [splitNN]
  | c1 :: c2 :: rest =>
    simp only [splitNN]
    by_cases hnn : c1 = '\n' ∧ c2 = '\n'
    · rw [if_pos hnn]; simp
    · rw [if_neg hnn]
      cases h : splitNN (c2 :: rest) <;> simp

lemma joinNN_splitNN (l : List Char) : joinNN (splitNN l) = l := by
  induction l using splitNN.induct with
  | case1 => rfl
  | case2 c => rfl
  | case3 c1 c2 rest hnn ih =>
    obtain ⟨h1, h2⟩ := hnn
    simp only [splitNN, if_pos (show c1 = '\n' ∧ c2 = '\n' from ⟨h1, h2⟩)]
    rw [joinNN_cons_of_ne_nil _ (splitNN_ne_nil rest), ih, h1, h2]
    rfl
  | case4 c1 c2 rest hnn hmatch ih =>
    exact absurd hmatch (splitNN_ne_nil _)
  | case5 c1 c2 rest hnn p ps hmatch ih =>
    simp only [splitNN, if_neg hnn, hmatch]
    rw [hmatch] at ih
    cases ps with
    | nil =>
      simp only [joinNN] at ih ⊢
      rw [ih]
    | cons q qs =>
      rw [joinNN_cons_of_ne_nil _ (by simp : q :: qs ≠ [])] at ih
      show joinNN ((c1 :: p) :: q :: qs) = c1 :: c2 :: rest
      rw [joinNN_cons_of_ne_nil _ (by simp : q :: qs ≠ []), ← ih]
      simp

/-- A clean paragraph: nonempty, with no leading or trailing whitespace. -/
def goodPar (q : List Char) : Prop :=
  q ≠ [] ∧ trimLeft q = q ∧ trimRight q = q

instance (q : List Char) : Decidable (goodPar q) := by
  unfold goodPar
  infer_instance

lemma joinNN_ne_nil_of_good {g : List (List Char)} (hne : g ≠ [])
    (hg : ∀ q ∈ g, goodPar q) : joinNN g ≠ [] := by
  cases g with
  | nil => exact absurd rfl hne
  | cons q t =>
    have hq := (hg q (by simp)).1
    cases t with
    | nil => simpa [joinNN] using hq
    | cons r rs =>
      rw [joinNN_cons_of_ne_nil q (by simp)]
      simp [hq]

lemma trimRight_joinNN_fix {g : List (List Char)} (hne : g ≠ [])
    (hg : ∀ q ∈ g, goodPar q) : trimRight (joinNN g) = joinNN g := by
  induction g with
  | nil => exact absurd rfl hne
  | cons q t ih =>
    cases t with
    | nil => exact (hg q (by simp)).2.2
    | cons r rs =>
      have ht : r :: rs ≠ [] := by simp
      have hgt : ∀ x ∈ r :: rs, goodPar x := fun x hx => hg x (by simp [hx])
      have hjt : trimRight (joinNN (r :: rs)) = joinNN (r :: rs) := ih ht hgt
      have hjne : joinNN (r :: rs) ≠ [] := joinNN_ne_nil_of_good ht hgt
      rw [joinNN_cons_of_ne_nil q ht, List.append_assoc,
        trimRight_fix_append _ (trimRight_fix_append _ hjt hjne) (by simp [hjne])]

lemma trimLeft_joinNN_append {g : List (List Char)} (x : List Char)
    (hne : g ≠ []) (hg : ∀ q ∈ g, goodPar q) :
    trimLeft (joinNN g ++ x) = joinNN g ++ x := by
  cases g with
  | nil => exact absurd rfl hne
  | cons q t =>
    obtain ⟨hq1, hq2, _⟩ := hg q (by simp)
    have hfix : List.dropWhile isWS q = q := hq2
    cases t with
    | nil =>
      show trimLeft (q ++ x) = q ++ x
      unfold trimLeft
      rw [dropWhile_append_of_ne_nil _ (by rw [hfix]; exact hq1), hfix]
    | cons r rs =>
      rw [joinNN_cons_of_ne_nil q (by simp), List.append_assoc, List.append_assoc]
      unfold trimLeft
      rw [dropWhile_append_of_ne_nil _ (by rw [hfix]; exact hq1), hfix]

lemma trim_joinNN_nn {g : List (List Char)} (hne : g ≠ [])
    (hg : ∀ q ∈ g, goodPar q) : trim (joinNN g ++ nn) = joinNN g := by
  rw [trim_append_nn]
  unfold trim
  have hfl : trimLeft (joinNN g) = joinNN g := by
    have h2 := trimLeft_joinNN_append [] hne hg
    simpa using h2
  rw [hfl]
  exact trimRight_joinNN_fix hne hg

lemma chunkLoop_ne_nil (max : Nat) (ps : List (List Char)) :
    ∀ g : List (List Char), g ≠ [] → (∀ q ∈ g, goodPar q) →
    (∀ q ∈ ps, goodPar q) → chunkLoop max ps (joinNN g ++ nn) ≠ [] := by
  induction ps with
  | nil =>
    intro g hne hg _
    simp only [chunkLoop]
    rw [if_pos (by rw [trim_joinNN_nn hne hg]; exact joinNN_ne_nil_of_good hne hg)]
    simp
  | cons p t ih =>
    intro g hne hg hps
    simp only [chunkLoop]
    by_cases hcond : (joinNN g ++ nn).length + p.length > max ∧ joinNN g ++ nn ≠ []
    · rw [if_pos hcond]; simp
    · rw [if_neg hcond]
      have hp : goodPar p := hps p (by simp)
      have harr : joinNN g ++ nn ++ p ++ nn = joinNN (g ++ [p]) ++ nn := by
        rw [joinNN_append hne (by simp)]
        simp [joinNN]
      rw [harr]
      exact ih (g ++ [p]) (by simp) (by
        intro q hq
        rcases List.mem_append.mp hq with h1 | h2
        · exact hg q h1
        · simp at h2; subst h2; exact hp)
        (fun q hq => hps q (by simp [hq]))

lemma chunkLoop_joinNN (max : Nat) (ps : List (List Char)) :
    ∀ g : List (List Char), g ≠ [] → (∀ q ∈ g, goodPar q) →
    (∀ q ∈ ps, goodPar q) →
    joinNN (chunkLoop max ps (joinNN g ++ nn)) = joinNN (g ++ ps) := by
  induction ps with
  | nil =>
    intro g hne hg _
    simp only [chunkLoop]
    rw [if_pos (by rw [trim_joinNN_nn hne hg]; exact joinNN_ne_nil_of_good hne hg)]
    rw [trim_joinNN_nn hne hg]
    simp [joinNN]
  | cons p t ih =>
    intro g hne hg hps
    have hp : goodPar p := hps p (by simp)
    have hpt : ∀ q ∈ t, goodPar q := fun q hq => hps q (by simp [hq])
    simp only [chunkLoop]
    by_cases hcond : (joinNN g ++ nn).length + p.length > max ∧ joinNN g ++ nn ≠ []
    · rw [if_pos hcond]
      have hsub : chunkLoop max t (joinNN [p] ++ nn) ≠ [] :=
        chunkLoop_ne_nil max t [p] (by simp) (by
          intro q hq; simp at hq; subst hq; exact hp) hpt
      have hform : (p ++ nn : List Char) = joinNN [p] ++ nn := rfl
      rw [hform, joinNN_cons_of_ne_nil _ hsub, trim_joinNN_nn hne hg,
        ih [p] (by simp) (by intro q hq; simp at hq; subst hq; exact hp) hpt,
        joinNN_append hne (by simp : (p :: t : List (List Char)) ≠ [])]
      simp
    · rw [if_neg hcond]
      have harr : joinNN g ++ nn ++ p ++ nn = joinNN (g ++ [p]) ++ nn := by
        rw [joinNN_append hne (by simp)]
        simp [joinNN]
      rw [harr, ih (g ++ [p]) (by simp) (by
        intro q hq
        rcases List.mem_append.mp hq with h1 | h2
        · exact hg q h1
        · simp at h2; subst h2; exact hp) hpt]
      simp

lemma joinNN_chunkText {text : List Char} (max : Nat)
    (h : ∀ q ∈ splitNN text, goodPar q) :
    joinNN (chunkText text max) = text := by
  unfold chunkText
  cases hsplit : splitNN text with
  | nil => exact absurd hsplit (splitNN_ne_nil text)
  | cons p ps =>
    have hp : goodPar p := by rw [hsplit] at h; exact h p (by simp)
    have hps : ∀ q ∈ ps, goodPar q := by
      rw [hsplit] at h; exact fun q hq => h q (by simp [hq])
    simp only [chunkLoop]
    rw [if_neg (by simp)]
    have hform : ([] ++ p ++ nn : List Char) = joinNN [p] ++ nn := by simp [joinNN]
    rw [hform, chunkLoop_joinNN max ps [p] (by simp)
      (by intro q hq; simp at hq; subst hq; exact hp) hps]
    have h2 : joinNN ([p] ++ ps) = joinNN (splitNN text) := by rw [hsplit]; rfl
    rw [h2, joinNN_splitNN]

/-! ### Size bounds for the two chunkers -/

lemma chunkLoop_size (max : Nat) (pars : List (List Char)) :
    ∀ (ps : List (List Char)) (cur : List Char), (∀ p ∈ ps, p ∈ pars) →
    (cur = [] ∨ ∃ x, cur = x ++ nn ∧ (x.length ≤ max ∨ x ∈ pars)) →
    ∀ c ∈ chunkLoop max ps cur,
      c.length ≤ max ∨ ∃ p ∈ pars, max < p.length ∧ c = trim p := by
  have flush : ∀ x : List Char, (x.length ≤ max ∨ x ∈ pars) →
      (trim (x ++ nn)).length ≤ max ∨
        ∃ p ∈ pars, max < p.length ∧ trim (x ++ nn) = trim p := by
    intro x hx
    rw [trim_append_nn]
    rcases hx with hlen | hmem
    · exact Or.inl (le_trans (length_trim_le x) hlen)
    · by_cases hbig : max < x.length
      · exact Or.inr ⟨x, hmem, hbig, rfl⟩
      · exact Or.inl (le_trans (length_trim_le x) (by omega))
  intro ps
  induction ps with
  | nil =>
    intro cur _ hinv c hc
    simp only [chunkLoop] at hc
    by_cases hne : trim cur ≠ []
    · rw [if_pos hne] at hc
      simp at hc
      subst hc
      rcases hinv with hcur | ⟨x, hx, hxp⟩
      · subst hcur; exact absurd rfl hne
      · subst hx; exact flush x hxp
    · rw [if_neg hne] at hc
      simp at hc
  | cons p t ih =>
    intro cur hps hinv c hc
    have hpmem : p ∈ pars := hps p (by simp)
    have hpt : ∀ q ∈ t, q ∈ pars := fun q hq => hps q (by simp [hq])
    simp only [chunkLoop] at hc
    by_cases hcond : cur.length + p.length > max ∧ cur ≠ []
    · rw [if_pos hcond] at hc
      rcases List.mem_cons.mp hc with hc1 | hc2
      · rcases hinv with hcur | ⟨x, hx, hxp⟩
        · exact absurd hcur hcond.2
        · subst hc1; subst hx; exact flush x hxp
      · exact ih (p ++ nn) hpt (Or.inr ⟨p, rfl, Or.inr hpmem⟩) c hc2
    · rw [if_neg hcond] at hc
      rcases hinv with hcur | ⟨x, hx, hxp⟩
      · subst hcur
        exact ih ([] ++ p ++ nn) hpt (Or.inr ⟨p, by simp, Or.inr hpmem⟩) c hc
      · have hcurne : cur ≠ [] := by subst hx; simp [nn]
        have hlen : cur.length + p.length ≤ max := by
          by_contra hbig
          exact hcond ⟨by omega, hcurne⟩
        refine ih (cur ++ p ++ nn) hpt (Or.inr ⟨cur ++ p, by simp, Or.inl (by
          simpa using hlen)⟩) c hc

lemma spc_all_ws : ∀ c ∈ [' '], isWS c = true := by decide

lemma chunkLoopS_size (max : Nat) (sents : List (List Char)) :
    ∀ (ss : List (List Char)) (cur : List Char), (∀ s ∈ ss, s ∈ sents) →
    (cur = [] ∨ ∃ x, cur = x ++ [' '] ∧
      (x.length ≤ max + 1 ∨ ∃ s ∈ sents, x = s ++ ['.'])) →
    ∀ c ∈ chunkLoopS max ss cur,
      c.length ≤ max + 1 ∨ ∃ s ∈ sents, max < s.length ∧ c = trim (s ++ dotSpace) := by
  have flush : ∀ x : List Char,
      (x.length ≤ max + 1 ∨ ∃ s ∈ sents, x = s ++ ['.']) →
      (trim (x ++ [' '])).length ≤ max + 1 ∨
        ∃ s ∈ sents, max < s.length ∧ trim (x ++ [' ']) = trim (s ++ dotSpace) := by
    intro x hx
    rw [trim_append_ws _ spc_all_ws]
    rcases hx with hlen | ⟨s, hs, hxs⟩
    · exact Or.inl (le_trans (length_trim_le x) hlen)
    · subst hxs
      by_cases hbig : max < s.length
      · refine Or.inr ⟨s, hs, hbig, ?_⟩
        have hds : (s ++ dotSpace : List Char) = (s ++ ['.']) ++ [' '] := by
          simp [dotSpace]
        rw [hds, trim_append_ws _ spc_all_ws]
      · refine Or.inl (le_trans (length_trim_le _) (by simp; omega))
  intro ss
  induction ss with
  | nil =>
    intro cur _ hinv c hc
    simp only [chunkLoopS] at hc
    by_cases hne : cur ≠ []
    · rw [if_pos hne] at hc
      simp at hc
      subst hc
      rcases hinv with hcur | ⟨x, hx, hxp⟩
      · exact absurd hcur hne
      · subst hx; exact flush x hxp
    · rw [if_neg hne] at hc
      simp at hc
  | cons s t ih =>
    intro cur hss hinv c hc
    have hsmem : s ∈ sents := hss s (by simp)
    have hst : ∀ q ∈ t, q ∈ sents := fun q hq => hss q (by simp [hq])
    simp only [chunkLoopS] at hc
    by_cases hcond : (cur ++ s).length ≤ max
    · rw [if_pos hcond] at hc
      refine ih (cur ++ s ++ dotSpace) hst (Or.inr ⟨cur ++ s ++ ['.'], by
        simp [dotSpace], Or.inl (by simp at hcond ⊢; omega)⟩) c hc
    · rw [if_neg hcond] at hc
      rcases List.mem_append.mp hc with hc1 | hc2
      · by_cases hne : cur ≠ []
        · rw [if_pos hne] at hc1
          simp at hc1
          subst hc1
          rcases hinv with hcur | ⟨x, hx, hxp⟩
          · exact absurd hcur hne
          · subst hx; exact flush x hxp
        · rw [if_neg hne] at hc1
          simp at hc1
      · refine ih (s ++ dotSpace) hst
          (Or.inr ⟨s ++ ['.'], by simp [dotSpace], Or.inr ⟨s, hsmem, rfl⟩⟩) c hc2

/-! ### Data model of the embedding store (`src/lib/embeddings.ts` and
`src/lib/projectEmbeddings.ts`) -/

/-- A value of the open `metadata` key/value bag threaded through inserts. -/
inductive MetaVal where
  | str (v : String)
  | strList (v : List String)
  | num (v : Nat)
  | nullv
deriving DecidableEq

/-- The schema-less `metadata` object. -/
abbrev MetaBag := List (String × MetaVal)

/-- `content_type` values of the `project_embeddings` table. -/
inductive PContentType where
  | project_metadata
  | document
  | document_chunk
deriving DecidableEq

/-- `content_type` values of the `company_brain_embeddings` table. -/
inductive CContentType where
  | company_info
  | document
  | additional_context
deriving DecidableEq

/-- A `project_embeddings` row, carrying exactly the columns written by the
inserts in the source (`id` and timestamps are database-generated). -/
structure PRow where
  project_id : String
  company_id : String
  content_type : PContentType
  content_id : Option String
  content : String
  metadata : Option MetaBag
  embedding : List ℚ
deriving DecidableEq

/-- A `company_brain_embeddings` row. -/
structure CRow where
  user_id : String
  content_type : CContentType
  content_id : Option String
  content : String
  metadata : Option MetaBag
  embedding : List ℚ
deriving DecidableEq

/-- Outcome of the `fetch` to the Gemini embedContent endpoint: HTTP status
flag, numeric status, and the parsed `data.embedding.values` (`none` models a
malformed payload, whose field access throws). -/
structure HttpResp where
  ok : Bool
  status : Nat
  values : Option (List ℚ)
deriving DecidableEq

/-- Environment of the client-side embedding call: the optional
`VITE_GEMINI_API_KEY` and the outcome of the network request
(`Except.error` models `fetch` itself throwing). -/
structure EmbedEnv where
  apiKey : Option String
  fetchResult : Except String HttpResp

/-- The `EmbeddingResponse` interface of `src/lib/embeddings.ts`. -/
structure EmbeddingResponse where
  embedding : List ℚ
  error : Option String

/-- `generateEmbedding` of `src/lib/embeddings.ts` (lines 259-293): a missing
API key returns a tagged configuration error; a thrown fetch error, a non-ok
HTTP status, or a malformed payload is caught and returned as a tagged error
with an empty vector; otherwise `data.embedding.values` is returned. -/
def generateEmbedding (env : EmbedEnv) (_text : String) : EmbeddingResponse :=
  match env.apiKey with
  | none => { embedding := [], error := some "Gemini API key not configured" }
  | some _ =>
    match env.fetchResult with
    | Except.error e => { embedding := [], error := some e }
    | Except.ok resp =>
      if resp.ok = false then
        { embedding := [],
          error := some ("Gemini API error: " ++ toString resp.status) }
      else
        match resp.values with
        | none => { embedding := [], error := some "Unknown error" }
        | some vs => { embedding := vs, error := none }

/-- The embedding client failed: missing API key, the fetch threw, a non-ok
HTTP status, or a malformed payload. -/
def clientFails (env : EmbedEnv) : Prop :=
  env.apiKey = none ∨ (∃ e, env.fetchResult = Except.error e) ∨
    (∃ resp, env.fetchResult = Except.ok resp ∧
      (resp.ok = false ∨ resp.values = none))

/-- The `\x7b success, error? \x7d` result shape shared by the store and
delete operations. -/
structure StoreResult where
  success : Bool
  error : Option String
deriving DecidableEq

/-- The `ProjectEmbeddingData` interface of `src/lib/projectEmbeddings.ts`. -/
structure ProjectEmbeddingData where
  project_id : String
  company_id : String
  content_type : PContentType
  content_id : Option String
  content : String
  metadata : Option MetaBag
  embedding : Option (List ℚ)

/-- The `CompanyBrainEmbedding` interface of `src/lib/embeddings.ts`. -/
structure CompanyBrainEmbedding where
  id : Option String
  user_id : String
  content_type : CContentType
  content_id : Option String
  content : String
  metadata : Option MetaBag
  embedding : Option (List ℚ)
  created_at : Option String
  updated_at : Option String

/-- The first block of `storeProjectEmbedding`: use `data.embedding` when
present, otherwise call the embedding client on `data.content` and fail with
its tagged error. -/
def resolveProjectEmbedding (env : EmbedEnv) (data : ProjectEmbeddingData) :
    Except String (List ℚ) :=
  match data.embedding with
  | some e => Except.ok e
  | none =>
    let result := generateEmbedding env data.content
    match result.error with
    | some e => Except.error e
    | none => Except.ok result.embedding

/-- The first block of `storeEmbedding`, identical in structure. -/
def resolveCompanyEmbedding (env : EmbedEnv) (data : CompanyBrainEmbedding) :
    Except String (List ℚ) :=
  match data.embedding with
  | some e => Except.ok e
  | none =>
    let result := generateEmbedding env data.content
    match result.error with
    | some e => Except.error e
    | none => Except.ok result.embedding

/-- `storeProjectEmbedding` of `src/lib/projectEmbeddings.ts` (lines 20-58).
`insertError` is the error reported by the `project_embeddings` insert
(`some` makes `if (error) throw error` fire; the catch returns the tagged
failure). On success exactly the listed columns are inserted as one new row. -/
def storeProjectEmbedding (env : EmbedEnv) (insertError : Option String)
    (db : List PRow) (data : ProjectEmbeddingData) : List PRow × StoreResult :=
  match resolveProjectEmbedding env data with
  | Except.error e => (db, { success := false, error := some e })
  | Except.ok emb =>
    match insertError with
    | some e => (db, { success := false, error := some e })
    | none =>
      (db ++ [{ project_id := data.project_id, company_id := data.company_id,
                content_type := data.content_type,
                content_id := data.content_id, content := data.content,
                metadata := data.metadata, embedding := emb }],
       { success := true, error := none })

/-- `storeEmbedding` of `src/lib/embeddings.ts` (lines 307-344), targeting
the `company_brain_embeddings` table. -/
def storeEmbedding (env : EmbedEnv) (insertError : Option String)
    (db : List CRow) (data : CompanyBrainEmbedding) : List CRow × StoreResult :=
  match resolveCompanyEmbedding env data with
  | Except.error e => (db, { success := false, error := some e })
  | Except.ok emb =>
    match insertError with
    | some e => (db, { success := false, error := some e })
    | none =>
      (db ++ [{ user_id := data.user_id, content_type := data.content_type,
                content_id := data.content_id, content := data.content,
                metadata := data.metadata, embedding := emb }],
       { success := true, error := none })

/-- `deleteProjectEmbeddings` of `src/lib/projectEmbeddings.ts`
(lines 157-177): removes every row of the project; a delete error is thrown
and caught, returning a tagged failure with the table unchanged. -/
def deleteProjectEmbeddings (deleteError : Option String) (db : List PRow)
    (projectId : String) : List PRow × StoreResult :=
  match deleteError with
  | some e => (db, { success := false, error := some e })
  | none =>
    (db.filter (fun r => !decide (r.project_id = projectId)),
     { success := true, error := none })

/-- `deleteProjectEmbeddingsByType` of `src/lib/projectEmbeddings.ts`
(lines 182-204): removes every row of the project with the given content
type. -/
def deleteProjectEmbeddingsByType (deleteError : Option String)
    (db : List PRow) (projectId : String) (contentType : PContentType) :
    List PRow × StoreResult :=
  match deleteError with
  | some e => (db, { success := false, error := some e })
  | none =>
    (db.filter (fun r =>
       !decide (r.project_id = projectId ∧ r.content_type = contentType)),
     { success := true, error := none })

/-! ### Similarity search (`searchSimilarContent`, `searchProjectContent`) -/

/-- Insert a record into a list sorted by descending score. -/
def orderedInsertDesc {α : Type} (score : α → ℚ) (r : α) :
    List α → List α
  | [] => [r]
  | x :: xs =>
    if score x < score r then r :: x :: xs
    else x :: orderedInsertDesc score r xs

/-- Sort records by descending score. -/
def sortByScoreDesc {α : Type} (score : α → ℚ) : List α → List α
  | [] => []
  | x :: xs => orderedInsertDesc score x (sortByScoreDesc score xs)

lemma mem_orderedInsertDesc {α : Type} (score : α → ℚ) (r a : α)
    (l : List α) : a ∈ orderedInsertDesc score r l ↔ a = r ∨ a ∈ l := by
  induction l with
  | nil => simp [orderedInsertDesc]
  | cons x xs ih =>
    simp only [orderedInsertDesc]
    by_cases hlt : score x < score r
    · rw [if_pos hlt]; simp
    · rw [if_neg hlt]
      simp only [List.mem_cons, ih]
      tauto

lemma mem_sortByScoreDesc {α : Type} (score : α → ℚ) (a : α) (l : List α) :
    a ∈ sortByScoreDesc score l ↔ a ∈ l := by
  induction l with
  | nil => simp [sortByScoreDesc]
  | cons x xs ih =>
    simp only [sortByScoreDesc, mem_orderedInsertDesc, ih, List.mem_cons]

/-- Modelled from the spec: the SQL ranking function
`match_company_brain_documents` that `searchSimilarContent` invokes via
`supabase.rpc` is not part of the repository source (only this call site
exists). Per the specification (section 4.4), it computes the similarity of
the query vector against every record within the tenant scope
(`match_user_id`), keeps the candidates at or above `match_threshold`, sorts
descending by similarity and truncates to `match_count`. The similarity
measure is a parameter `sim`. -/
def matchCompanyBrainDocuments (sim : List ℚ → List ℚ → ℚ)
    (rows : List CRow) (query_embedding : List ℚ) (match_user_id : String)
    (match_threshold : ℚ) (match_count : Nat) : List CRow :=
  (sortByScoreDesc (fun r => sim query_embedding r.embedding)
    (rows.filter (fun r =>
      decide (r.user_id = match_user_id ∧
        match_threshold ≤ sim query_embedding r.embedding)))).take match_count

/-- Modelled from the spec: the SQL ranking function
`match_project_documents` that `searchProjectContent` invokes via
`supabase.rpc` is not part of the repository source. Per the specification
(section 4.4), it ranks the records within the project scope
(`p_project_id`) by similarity, thresholds and truncates. -/
def matchProjectDocuments (sim : List ℚ → List ℚ → ℚ)
    (rows : List PRow) (p_query_embedding : List ℚ) (p_project_id : String)
    (p_match_threshold : ℚ) (p_match_count : Nat) : List PRow :=
  (sortByScoreDesc (fun r => sim p_query_embedding r.embedding)
    (rows.filter (fun r =>
      decide (r.project_id = p_project_id ∧
        p_match_threshold ≤ sim p_query_embedding r.embedding)))).take p_match_count

/-- Observable outcome of a company-scope search: the returned list, whether
the ranking RPC was issued, and the `console.error` log lines. -/
structure SearchOutC where
  results : List CRow
  rpcCalled : Bool
  logs : List String

/-- Observable outcome of a project-scope search. -/
structure SearchOutP where
  results : List PRow
  rpcCalled : Bool
  logs : List String

/-- `searchSimilarContent` of `src/lib/embeddings.ts` (lines 378-409): embed
the query; on a tagged embedding failure log and return `[]` without issuing
the RPC; a thrown RPC error is caught, logged, and `[]` is returned. -/
def searchSimilarContent (env : EmbedEnv) (rpcError : Option String)
    (sim : List ℚ → List ℚ → ℚ) (db : List CRow) (userId : String)
    (query : String) (threshold : ℚ := 78/100) (lim : Nat := 10) :
    SearchOutC :=
  let result := generateEmbedding env query
  match result.error with
  | some e =>
    { results := [], rpcCalled := false,
      logs := ["Error generating query embedding: " ++ e] }
  | none =>
    match rpcError with
    | some e =>
      { results := [], rpcCalled := true,
        logs := ["Error searching similar content: " ++ e] }
    | none =>
      { results := matchCompanyBrainDocuments sim db result.embedding
          userId threshold lim,
        rpcCalled := true, logs := [] }

/-- `searchProjectContent` of `src/lib/projectEmbeddings.ts` (lines 63-94). -/
def searchProjectContent (env : EmbedEnv) (rpcError : Option String)
    (sim : List ℚ → List ℚ → ℚ) (db : List PRow) (projectId : String)
    (query : String) (threshold : ℚ := 78/100) (lim : Nat := 10) :
    SearchOutP :=
  let result := generateEmbedding env query
  match result.error with
  | some e =>
    { results := [], rpcCalled := false,
      logs := ["Error generating query embedding: " ++ e] }
  | none =>
    match rpcError with
    | some e =>
      { results := [], rpcCalled := true,
        logs := ["Error searching project content: " ++ e] }
    | none =>
      { results := matchProjectDocuments sim db result.embedding
          projectId threshold lim,
        rpcCalled := true, logs := [] }

/-- Number of live rows for one (tenant, scope, content type, content id)
key. -/
def keyCount (db : List PRow) (projectId companyId : String)
    (contentType : PContentType) (contentId : Option String) : Nat :=
  (db.filter (fun r =>
    decide (r.project_id = projectId ∧ r.company_id = companyId ∧
      r.content_type = contentType ∧ r.content_id = contentId))).length

/-- One `deleteProjectEmbeddingsByType` + `storeProjectEmbedding` refresh
cycle for the key carried by `data`, as performed by callers before a
re-save. -/
def refreshCycle (env : EmbedEnv) (db : List PRow)
    (data : ProjectEmbeddingData) : List PRow :=
  (storeProjectEmbedding env none
    (deleteProjectEmbeddingsByType none db data.project_id data.content_type).1
    data).1

/-! ### Batch regeneration edge functions -/

/-- Format a nullable text field as `label + value`, or `""` when the field
is null or empty (JavaScript falsiness), to be dropped by
`.filter(Boolean)`. -/
def optLine (label : String) (v : Option String) : String :=
  match v with
  | some s => if s = "" then "" else label ++ s
  | none => ""

/-- Format a nullable string-array field (`field?.length ? label + join : ""`). -/
def listLine (label : String) (v : Option (List String)) : String :=
  match v with
  | some l => if l = [] then "" else label ++ String.intercalate (", ") l
  | none => ""

/-- `array.filter(Boolean).join("\n")`. -/
def joinNonempty (parts : List String) : String :=
  String.intercalate ("\n") (parts.filter (fun s => !s.isEmpty))

/-- Lift a nullable string into the metadata bag. -/
def mOptStr (v : Option String) : MetaVal :=
  match v with
  | some s => MetaVal.str s
  | none => MetaVal.nullv

/-- Lift a nullable string array into the metadata bag. -/
def mOptList (v : Option (List String)) : MetaVal :=
  match v with
  | some l => MetaVal.strList l
  | none => MetaVal.nullv

/-- A `projects` row as read by the regeneration sweep. -/
structure ProjectR where
  id : String
  company_id : String
  project_name : String
  status : String
deriving DecidableEq

/-- The `ProjectMetadata` interface of the project regeneration function. -/
structure ProjectMetadataR where
  id : String
  project_id : String
  company_id : String
  project_description : Option String
  project_goals : Option String
  target_audience : Option String
  budget_range : Option String
  timeline : Option String
  tech_stack : Option (List String)
  key_features : Option (List String)
  key_goals : Option (List String)
  success_metrics : Option String
  constraints : Option String
  additional_notes : Option String
deriving DecidableEq

/-- The `ProjectDocument` interface of the project regeneration function. -/
structure ProjectDocumentR where
  id : String
  project_id : String
  company_id : String
  file_name : String
  file_type : String
  description : Option String
  tags : Option (List String)
  category : Option String
  storage_url : String
deriving DecidableEq

/-- `prepareProjectMetadataForEmbedding` of the project regeneration
function: build the content string from the non-null metadata fields. -/
def prepareProjectMetadataForEmbedding (metadata : ProjectMetadataR)
    (projectName : String) : String :=
  joinNonempty [
    ("Project: ") ++ projectName,
    optLine ("Description: ") metadata.project_description,
    optLine ("Goals: ") metadata.project_goals,
    optLine ("Target Audience: ") metadata.target_audience,
    optLine ("Budget: ") metadata.budget_range,
    optLine ("Timeline: ") metadata.timeline,
    listLine ("Tech Stack: ") metadata.tech_stack,
    listLine ("Key Features: ") metadata.key_features,
    listLine ("Key Goals: ") metadata.key_goals,
    optLine ("Success Metrics: ") metadata.success_metrics,
    optLine ("Constraints: ") metadata.constraints,
    optLine ("Additional Notes: ") metadata.additional_notes]

/-- The document content string built inside the project document loop. -/
def projectDocumentContent (p : ProjectR) (doc : ProjectDocumentR) : String :=
  joinNonempty [
    ("Project: ") ++ p.project_name,
    ("File: ") ++ doc.file_name,
    optLine ("Description: ") doc.description,
    optLine ("Category: ") doc.category,
    listLine ("Tags: ") doc.tags,
    ("Type: ") ++ doc.file_type]

/-- The `project_embeddings` row inserted for regenerated project metadata. -/
def projectMetadataRow (p : ProjectR) (content : String)
    (embedding : List ℚ) : PRow :=
  { project_id := p.id, company_id := p.company_id,
    content_type := PContentType.project_metadata, content_id := some p.id,
    content := content,
    metadata := some [
      (("source"), MetaVal.str ("project_metadata_form")),
      (("project_name"), MetaVal.str p.project_name),
      (("status"), MetaVal.str p.status)],
    embedding := embedding }

/-- The `project_embeddings` row inserted for a regenerated document. -/
def projectDocumentRow (p : ProjectR) (d : ProjectDocumentR)
    (content : String) (embedding : List ℚ) : PRow :=
  { project_id := p.id, company_id := p.company_id,
    content_type := PContentType.document, content_id := some d.id,
    content := content,
    metadata := some [
      (("file_name"), MetaVal.str d.file_name),
      (("file_type"), MetaVal.str d.file_type),
      (("category"), mOptStr d.category),
      (("tags"), mOptList d.tags),
      (("storage_url"), MetaVal.str d.storage_url),
      (("project_name"), MetaVal.str p.project_name)],
    embedding := embedding }

/-- The inner document loop of the project regeneration sweep: per document,
delete its old embedding rows, rebuild the content string from the document
metadata, embed it (a thrown embedding error aborts the whole handler), and
insert the new row, incrementing the documents counter. -/
def sweepDocsP (embed : String → Except String (List ℚ)) (p : ProjectR) :
    List ProjectDocumentR → List PRow → Nat →
    Except (String × List PRow) (List PRow × Nat)
  | [], db, dc => Except.ok (db, dc)
  | d :: ds, db, dc =>
    let db1 := db.filter (fun r =>
      !decide (r.project_id = p.id ∧ r.content_type = PContentType.document ∧
        r.content_id = some d.id))
    let content := projectDocumentContent p d
    match embed content with
    | Except.error e => Except.error (e, db1)
    | Except.ok v =>
      sweepDocsP embed p ds (db1 ++ [projectDocumentRow p d content v]) (dc + 1)

/-- Processing of one project inside the regeneration sweep: refresh the
metadata embedding when a metadata row exists (`!metadataError && metadata`),
then refresh each live document. Any embedding failure is propagated as an
exception. -/
def sweepProject (embed : String → Except String (List ℚ))
    (metadataOf : String → Option ProjectMetadataR)
    (documentsOf : String → Option (List ProjectDocumentR)) (p : ProjectR)
    (db : List PRow) (mc dc : Nat) :
    Except (String × List PRow) (List PRow × Nat × Nat) :=
  let step :=
    match metadataOf p.id with
    | none => Except.ok (db, mc)
    | some m =>
      let db1 := db.filter (fun r =>
        !decide (r.project_id = p.id ∧
          r.content_type = PContentType.project_metadata))
      let content := prepareProjectMetadataForEmbedding m p.project_name
      match embed content with
      | Except.error e => Except.error (e, db1)
      | Except.ok v =>
        Except.ok (db1 ++ [projectMetadataRow p content v], mc + 1)
  match step with
  | Except.error x => Except.error x
  | Except.ok (db2, mc2) =>
    match documentsOf p.id with
    | none => Except.ok (db2, mc2, dc)
    | some docs =>
      match sweepDocsP embed p docs db2 dc with
      | Except.error x => Except.error x
      | Except.ok (db3, dc3) => Except.ok (db3, mc2, dc3)

/-- The main loop over all projects. -/
def sweepProjects (embed : String → Except String (List ℚ))
    (metadataOf : String → Option ProjectMetadataR)
    (documentsOf : String → Option (List ProjectDocumentR)) :
    List ProjectR → List PRow → Nat → Nat →
    Except (String × List PRow) (List PRow × Nat × Nat)
  | [], db, mc, dc => Except.ok (db, mc, dc)
  | p :: ps, db, mc, dc =>
    match sweepProject embed metadataOf documentsOf p db mc dc with
    | Except.error x => Except.error x
    | Except.ok (db2, mc2, dc2) =>
      sweepProjects embed metadataOf documentsOf ps db2 mc2 dc2

/-- The stats object of the project regeneration success response. -/
structure ProjectRegenStats where
  projects_processed : Nat
  metadata_processed : Nat
  documents_processed : Nat
  total_embeddings : Nat
deriving DecidableEq

/-- Responses of the project regeneration handler: 401, a caught error
(HTTP 500 with only an `error` message), or 200 with stats. -/
inductive ProjectRegenResponse where
  | unauthorized
  | serverError (msg : String)
  | success (stats : ProjectRegenStats)
deriving DecidableEq

/-- The `Deno.serve` handler of the project regeneration function
(`src/unnamed/part_003`, lines 105-288): check the auth header, require the
API key, load all projects, sweep them sequentially inside one try/catch,
and answer with aggregate counts on success or a single error response when
anything in the sweep throws. -/
def regenerateProjectEmbeddings (authHeader apiKey : Option String)
    (projectsResult : Except String (List ProjectR))
    (embed : String → Except String (List ℚ))
    (metadataOf : String → Option ProjectMetadataR)
    (documentsOf : String → Option (List ProjectDocumentR))
    (db : List PRow) : ProjectRegenResponse × List PRow :=
  match authHeader with
  | none => (ProjectRegenResponse.unauthorized, db)
  | some _ =>
    match apiKey with
    | none =>
      (ProjectRegenResponse.serverError ("GEMINI_API_KEY not configured"), db)
    | some _ =>
      match projectsResult with
      | Except.error e => (ProjectRegenResponse.serverError e, db)
      | Except.ok ps =>
        match sweepProjects embed metadataOf documentsOf ps db 0 0 with
        | Except.error (e, db2) => (ProjectRegenResponse.serverError e, db2)
        | Except.ok (db2, mc, dc) =>
          (ProjectRegenResponse.success
            { projects_processed := ps.length, metadata_processed := mc,
              documents_processed := dc, total_embeddings := mc + dc }, db2)

/-- The `CompanyBrain` interface of the company regeneration function. -/
structure CompanyBrainR where
  id : String
  user_id : String
  company_name : Option String
  industry : Option String
  company_size : Option String
  target_market : Option String
  key_products : Option String
  unique_value_prop : Option String
  additional_context : Option String
deriving DecidableEq

/-- The `BrainDocument` interface of the company regeneration function. -/
structure BrainDocumentR where
  id : String
  user_id : String
  file_name : String
  file_type : String
  description : Option String
  tags : Option (List String)
  category : Option String
  storage_url : String
deriving DecidableEq

/-- `prepareCompanyInfoForEmbedding` of the company regeneration function. -/
def prepareCompanyInfoForEmbedding (brain : CompanyBrainR) : String :=
  joinNonempty [
    optLine ("Company: ") brain.company_name,
    optLine ("Industry: ") brain.industry,
    optLine ("Size: ") brain.company_size,
    optLine ("Target Market: ") brain.target_market,
    optLine ("Products: ") brain.key_products,
    optLine ("Value Proposition: ") brain.unique_value_prop]

/-- The content string built for a brain document. -/
def brainDocumentContent (doc : BrainDocumentR) : String :=
  joinNonempty [
    ("File: ") ++ doc.file_name,
    optLine ("Description: ") doc.description,
    optLine ("Category: ") doc.category,
    listLine ("Tags: ") doc.tags,
    ("Type: ") ++ doc.file_type]

/-- The `company_brain_embeddings` row inserted for regenerated company
info. -/
def companyInfoRow (b : CompanyBrainR) (content : String)
    (embedding : List ℚ) : CRow :=
  { user_id := b.user_id, content_type := CContentType.company_info,
    content_id := some b.id, content := content,
    metadata := some [
      (("company_name"), mOptStr b.company_name),
      (("industry"), mOptStr b.industry),
      (("company_size"), mOptStr b.company_size)],
    embedding := embedding }

/-- The row inserted for one additional-context chunk. -/
def contextChunkRow (b : CompanyBrainR) (content : String)
    (embedding : List ℚ) (i total : Nat) : CRow :=
  { user_id := b.user_id, content_type := CContentType.additional_context,
    content_id := some b.id, content := content,
    metadata := some [
      (("chunk_index"), MetaVal.num i),
      (("total_chunks"), MetaVal.num total)],
    embedding := embedding }

/-- The row inserted for a regenerated brain document. -/
def brainDocumentRow (doc : BrainDocumentR) (content : String)
    (embedding : List ℚ) : CRow :=
  { user_id := doc.user_id, content_type := CContentType.document,
    content_id := some doc.id, content := content,
    metadata := some [
      (("file_name"), MetaVal.str doc.file_name),
      (("file_type"), MetaVal.str doc.file_type),
      (("category"), mOptStr doc.category),
      (("tags"), mOptList doc.tags),
      (("storage_url"), MetaVal.str doc.storage_url)],
    embedding := embedding }

/-- The per-chunk loop over the additional-context chunks of one brain:
embed each chunk (a failure aborts the handler) and insert it with its
index. -/
def insertContextChunks (embed : String → Except String (List ℚ))
    (b : CompanyBrainR) (total : Nat) :
    Nat → List (List Char) → List CRow →
    Except (String × List CRow) (List CRow)
  | _, [], db => Except.ok db
  | i, ch :: rest, db =>
    match embed (String.mk ch) with
    | Except.error e => Except.error (e, db)
    | Except.ok v =>
      insertContextChunks embed b total (i + 1) rest
        (db ++ [contextChunkRow b (String.mk ch) v i total])

/-- Processing of one company brain inside the regeneration sweep: delete
the old `company_info` rows, embed and insert the fresh content, then — when
`additional_context` is truthy — delete the old `additional_context` rows
and re-chunk and re-embed it chunk by chunk. -/
def processBrain (embed : String → Except String (List ℚ))
    (b : CompanyBrainR) (db : List CRow) :
    Except (String × List CRow) (List CRow) :=
  let db1 := db.filter (fun r =>
    !decide (r.user_id = b.user_id ∧
      r.content_type = CContentType.company_info))
  let content := prepareCompanyInfoForEmbedding b
  match embed content with
  | Except.error e => Except.error (e, db1)
  | Except.ok v =>
    let db2 := db1 ++ [companyInfoRow b content v]
    match b.additional_context with
    | none => Except.ok db2
    | some ctx =>
      if ctx = "" then Except.ok db2
      else
        let db3 := db2.filter (fun r =>
          !decide (r.user_id = b.user_id ∧
            r.content_type = CContentType.additional_context))
        let chunks := chunkTextS ctx.toList 1000
        insertContextChunks embed b chunks.length 0 chunks db3

/-- The loop over all company brains. -/
def processBrains (embed : String → Except String (List ℚ)) :
    List CompanyBrainR → List CRow → Except (String × List CRow) (List CRow)
  | [], db => Except.ok db
  | b :: bs, db =>
    match processBrain embed b db with
    | Except.error x => Except.error x
    | Except.ok db2 => processBrains embed bs db2

/-- The loop over all brain documents: delete the old rows for the document,
rebuild the content from the document metadata, embed and insert. -/
def processBrainDocs (embed : String → Except String (List ℚ)) :
    List BrainDocumentR → List CRow → Except (String × List CRow) (List CRow)
  | [], db => Except.ok db
  | d :: ds, db =>
    let db1 := db.filter (fun r =>
      !decide (r.user_id = d.user_id ∧
        r.content_type = CContentType.document ∧ r.content_id = some d.id))
    let content := brainDocumentContent d
    match embed content with
    | Except.error e => Except.error (e, db1)
    | Except.ok v => processBrainDocs embed ds (db1 ++ [brainDocumentRow d content v])

/-- The stats object of the company regeneration success response. -/
structure CompanyRegenStats where
  company_brains_processed : Nat
  documents_processed : Nat
  total_processed : Nat
deriving DecidableEq

/-- Responses of the company regeneration handler. -/
inductive CompanyRegenResponse where
  | unauthorized
  | serverError (msg : String)
  | success (stats : CompanyRegenStats)
deriving DecidableEq

/-- The `Deno.serve` handler of the company regeneration function
(`supabase/functions/generate-project-embedding/index.ts`, lines 362-553):
check the auth header and API key, sweep all company brains then all brain
documents inside one try/catch, and answer with aggregate counts on success
or one error response when anything throws. -/
def regenerateCompanyEmbeddings (authHeader apiKey : Option String)
    (brainsResult : Except String (List CompanyBrainR))
    (documentsResult : Except String (List BrainDocumentR))
    (embed : String → Except String (List ℚ)) (db : List CRow) :
    CompanyRegenResponse × List CRow :=
  match authHeader with
  | none => (CompanyRegenResponse.unauthorized, db)
  | some _ =>
    match apiKey with
    | none =>
      (CompanyRegenResponse.serverError ("GEMINI_API_KEY not configured"), db)
    | some _ =>
      match brainsResult with
      | Except.error e => (CompanyRegenResponse.serverError e, db)
      | Except.ok brains =>
        match processBrains embed brains db with
        | Except.error (e, db2) => (CompanyRegenResponse.serverError e, db2)
        | Except.ok db1 =>
          match documentsResult with
          | Except.error e => (CompanyRegenResponse.serverError e, db1)
          | Except.ok docs =>
            match processBrainDocs embed docs db1 with
            | Except.error (e, db2) =>
              (CompanyRegenResponse.serverError e, db2)
            | Except.ok db2 =>
              (CompanyRegenResponse.success
                { company_brains_processed := brains.length,
                  documents_processed := docs.length,
                  total_processed := brains.length + docs.length }, db2)

/-! ### Claim theorems -/

lemma generateEmbedding_error_of_clientFails (env : EmbedEnv) (t : String)
    (h : clientFails env) : ∃ e, (generateEmbedding env t).error = some e := by
  rcases h with hkey | ⟨e, hfetch⟩ | ⟨resp, hfetch, hbad⟩
  · exact ⟨("Gemini API key not configured"), by simp [generateEmbedding, hkey]⟩
  · cases hk : env.apiKey with
    | none =>
      exact ⟨("Gemini API key not configured"), by simp [generateEmbedding, hk]⟩
    | some k => exact ⟨e, by simp [generateEmbedding, hk, hfetch]⟩
  · cases hk : env.apiKey with
    | none =>
      exact ⟨("Gemini API key not configured"), by simp [generateEmbedding, hk]⟩
    | some k =>
      rcases hbad with hok | hvals
      · exact ⟨("Gemini API error: " ++ toString resp.status),
          by simp [generateEmbedding, hk, hfetch, hok]⟩
      · cases hro : resp.ok with
        | false =>
          exact ⟨("Gemini API error: " ++ toString resp.status),
            by simp [generateEmbedding, hk, hfetch, hro]⟩
        | true =>
          exact ⟨("Unknown error"),
            by simp [generateEmbedding, hk, hfetch, hro, hvals]⟩

/-- C10: the store and delete operations are total at their interface: for
every input and every injected failure (missing API key, provider HTTP
error, malformed payload, persistence error), `storeEmbedding`,
`storeProjectEmbedding`, `deleteProjectEmbeddings` and
`deleteProjectEmbeddingsByType` return a tagged result — success with no
error, or failure with an error message — and never raise to the caller. -/
theorem C10_store_delete_total (env : EmbedEnv)
    (insertError deleteError : Option String) (pdb : List PRow)
    (cdb : List CRow) (pdata : ProjectEmbeddingData)
    (cdata : CompanyBrainEmbedding) (projectId : String)
    (contentType : PContentType) :
    (((storeProjectEmbedding env insertError pdb pdata).2.success = true ∧
        (storeProjectEmbedding env insertError pdb pdata).2.error = none) ∨
      ((storeProjectEmbedding env insertError pdb pdata).2.success = false ∧
        ∃ m, (storeProjectEmbedding env insertError pdb pdata).2.error = some m)) ∧
    (((storeEmbedding env insertError cdb cdata).2.success = true ∧
        (storeEmbedding env insertError cdb cdata).2.error = none) ∨
      ((storeEmbedding env insertError cdb cdata).2.success = false ∧
        ∃ m, (storeEmbedding env insertError cdb cdata).2.error = some m)) ∧
    (((deleteProjectEmbeddings deleteError pdb projectId).2.success = true ∧
        (deleteProjectEmbeddings deleteError pdb projectId).2.error = none) ∨
      ((deleteProjectEmbeddings deleteError pdb projectId).2.success = false ∧
        ∃ m, (deleteProjectEmbeddings deleteError pdb projectId).2.error = some m)) ∧
    (((deleteProjectEmbeddingsByType deleteError pdb projectId contentType).2.success = true ∧
        (deleteProjectEmbeddingsByType deleteError pdb projectId contentType).2.error = none) ∨
      ((deleteProjectEmbeddingsByType deleteError pdb projectId contentType).2.success = false ∧
        ∃ m, (deleteProjectEmbeddingsByType deleteError pdb projectId contentType).2.error = some m)) := by
  refine ⟨?_, ?_, ?_, ?_⟩
  · cases hres : resolveProjectEmbedding env pdata with
    | error e => exact Or.inr (by simp [storeProjectEmbedding, hres])
    | ok v =>
      cases insertError with
      | none => exact Or.inl (by simp [storeProjectEmbedding, hres])
      | some e => exact Or.inr (by simp [storeProjectEmbedding, hres])
  · cases hres : resolveCompanyEmbedding env cdata with
    | error e => exact Or.inr (by simp [storeEmbedding, hres])
    | ok v =>
      cases insertError with
      | none => exact Or.inl (by simp [storeEmbedding, hres])
      | some e => exact Or.inr (by simp [storeEmbedding, hres])
  · cases deleteError with
    | none => exact Or.inl (by simp [deleteProjectEmbeddings])
    | some e => exact Or.inr (by simp [deleteProjectEmbeddings])
  · cases deleteError with
    | none => exact Or.inl (by simp [deleteProjectEmbeddingsByType])
    | some e => exact Or.inr (by simp [deleteProjectEmbeddingsByType])

/-- C2: when the record carries no precomputed embedding and the embedding
client fails (missing API key, thrown fetch, non-success HTTP status or
malformed payload), both store operations return a tagged failure without
throwing and insert nothing: the stored state is unchanged. -/
theorem C2_store_failure_no_insert (env : EmbedEnv)
    (insertError : Option String) (pdb : List PRow) (cdb : List CRow)
    (pdata : ProjectEmbeddingData) (cdata : CompanyBrainEmbedding)
    (hfail : clientFails env) (hpe : pdata.embedding = none)
    (hce : cdata.embedding = none) :
    (storeProjectEmbedding env insertError pdb pdata).1 = pdb ∧
    (storeProjectEmbedding env insertError pdb pdata).2.success = false ∧
    (∃ m, (storeProjectEmbedding env insertError pdb pdata).2.error = some m) ∧
    (storeEmbedding env insertError cdb cdata).1 = cdb ∧
    (storeEmbedding env insertError cdb cdata).2.success = false ∧
    (∃ m, (storeEmbedding env insertError cdb cdata).2.error = some m) := by
  obtain ⟨e1, he1⟩ := generateEmbedding_error_of_clientFails env pdata.content hfail
  obtain ⟨e2, he2⟩ := generateEmbedding_error_of_clientFails env cdata.content hfail
  have hres1 : resolveProjectEmbedding env pdata = Except.error e1 := by
    simp [resolveProjectEmbedding, hpe, he1]
  have hres2 : resolveCompanyEmbedding env cdata = Except.error e2 := by
    simp [resolveCompanyEmbedding, hce, he2]
  refine ⟨?_, ?_, ⟨e1, ?_⟩, ?_, ?_, ⟨e2, ?_⟩⟩ <;>
    simp [storeProjectEmbedding, storeEmbedding, hres1, hres2]

/-- C2 witness: a concrete record without an embedding, stored while the API
key is missing, leaves the table unchanged and reports a tagged failure. -/
theorem C2_store_failure_no_insert_witness :
    clientFails ⟨none, Except.error ("net down")⟩ ∧
    (({ project_id := "p", company_id := "c",
        content_type := PContentType.document, content_id := some ("d"),
        content := "text", metadata := none,
        embedding := none } : ProjectEmbeddingData).embedding = none) ∧
    (storeProjectEmbedding ⟨none, Except.error ("net down")⟩ none []
      { project_id := "p", company_id := "c",
        content_type := PContentType.document, content_id := some ("d"),
        content := "text", metadata := none, embedding := none }).1 = [] ∧
    (storeProjectEmbedding ⟨none, Except.error ("net down")⟩ none []
      { project_id := "p", company_id := "c",
        content_type := PContentType.document, content_id := some ("d"),
        content := "text", metadata := none,
        embedding := none }).2.success = false := by
  have h := C2_store_failure_no_insert ⟨none, Except.error ("net down")⟩ none
    [] []
    { project_id := "p", company_id := "c",
      content_type := PContentType.document, content_id := some ("d"),
      content := "text", metadata := none, embedding := none }
    { id := none, user_id := "u", content_type := CContentType.document,
      content_id := none, content := "t", metadata := none,
      embedding := none, created_at := none, updated_at := none }
    (Or.inl rfl) rfl rfl
  exact ⟨Or.inl rfl, rfl, h.1, h.2.1⟩

/-- C3: when embedding the query fails, both search functions return an
empty result list, never issue the ranking RPC, and log the error instead of
propagating it. -/
theorem C3_search_degrades_empty (env : EmbedEnv) (rpcError : Option String)
    (sim : List ℚ → List ℚ → ℚ) (cdb : List CRow) (pdb : List PRow)
    (userId projectId query : String) (threshold : ℚ) (lim : Nat)
    (hfail : clientFails env) :
    (searchSimilarContent env rpcError sim cdb userId query threshold lim).results = [] ∧
    (searchSimilarContent env rpcError sim cdb userId query threshold lim).rpcCalled = false ∧
    (searchSimilarContent env rpcError sim cdb userId query threshold lim).logs ≠ [] ∧
    (searchProjectContent env rpcError sim pdb projectId query threshold lim).results = [] ∧
    (searchProjectContent env rpcError sim pdb projectId query threshold lim).rpcCalled = false ∧
    (searchProjectContent env rpcError sim pdb projectId query threshold lim).logs ≠ [] := by
  obtain ⟨e, he⟩ := generateEmbedding_error_of_clientFails env query hfail
  refine ⟨?_, ?_, ?_, ?_, ?_, ?_⟩ <;>
    simp [searchSimilarContent, searchProjectContent, he]

/-- C3 witness: with the API key missing, a concrete search returns no
results, issues no ranking query and logs the failure. -/
theorem C3_search_degrades_empty_witness :
    clientFails ⟨none, Except.error ("net down")⟩ ∧
    (searchSimilarContent ⟨none, Except.error ("net down")⟩ none
      (fun _ _ => 0) [] ("u") ("q") (78/100) 10).results = [] ∧
    (searchSimilarContent ⟨none, Except.error ("net down")⟩ none
      (fun _ _ => 0) [] ("u") ("q") (78/100) 10).rpcCalled = false := by
  have h := C3_search_degrades_empty ⟨none, Except.error ("net down")⟩ none
    (fun _ _ => 0) [] [] ("u") ("p") ("q") (78/100) 10 (Or.inl rfl)
  exact ⟨Or.inl rfl, h.1, h.2.1⟩

lemma keyCount_append (db1 db2 : List PRow) (p c : String)
    (ct : PContentType) (ci : Option String) :
    keyCount (db1 ++ db2) p c ct ci =
      keyCount db1 p c ct ci + keyCount db2 p c ct ci := by
  unfold keyCount
  rw [List.filter_append, List.length_append]

lemma keyCount_deleteByType (db : List PRow) (p c : String)
    (ct : PContentType) (ci : Option String) :
    keyCount (deleteProjectEmbeddingsByType none db p ct).1 p c ct ci = 0 := by
  unfold keyCount deleteProjectEmbeddingsByType
  simp only [List.length_eq_zero]
  rw [List.filter_eq_nil_iff]
  intro r hr
  have hmem := List.mem_filter.mp hr
  intro hkey
  have hkey' := of_decide_eq_true hkey
  have hdel := hmem.2
  simp only [Bool.not_eq_true'] at hdel
  exact absurd (by exact ⟨hkey'.1, hkey'.2.2.1⟩) (of_decide_eq_false hdel)

lemma refreshCycle_keyCount (env : EmbedEnv) (db : List PRow)
    (data : ProjectEmbeddingData) (v : List ℚ)
    (hres : resolveProjectEmbedding env data = Except.ok v) :
    keyCount (refreshCycle env db data) data.project_id data.company_id
      data.content_type data.content_id = 1 := by
  unfold refreshCycle
  rw [show (storeProjectEmbedding env none
      (deleteProjectEmbeddingsByType none db data.project_id data.content_type).1
      data).1 =
    (deleteProjectEmbeddingsByType none db data.project_id data.content_type).1 ++
      [{ project_id := data.project_id, company_id := data.company_id,
         content_type := data.content_type, content_id := data.content_id,
         content := data.content, metadata := data.metadata,
         embedding := v }] by
    simp [storeProjectEmbedding, hres]]
  rw [keyCount_append, keyCount_deleteByType]
  unfold keyCount
  simp

/-- C1: for any prior table contents, two sequential
`deleteProjectEmbeddingsByType` + `storeProjectEmbedding` refresh cycles for
one (tenant, scope, content type, content id) key leave exactly one live
record for that key, provided the embedding resolution and the database
operations of both cycles succeed. -/
theorem C1_refresh_uniqueness (env1 env2 : EmbedEnv) (db : List PRow)
    (data : ProjectEmbeddingData) (v1 v2 : List ℚ)
    (h1 : resolveProjectEmbedding env1 data = Except.ok v1)
    (h2 : resolveProjectEmbedding env2 data = Except.ok v2) :
    keyCount (refreshCycle env2 (refreshCycle env1 db data) data)
      data.project_id data.company_id data.content_type data.content_id = 1 :=
  refreshCycle_keyCount env2 (refreshCycle env1 db data) data v2 h2

/-- C1 witness: starting from a table that already holds three duplicate
rows for the key, two concrete refresh cycles leave exactly one. -/
theorem C1_refresh_uniqueness_witness :
    resolveProjectEmbedding ⟨some ("k"), Except.ok ⟨true, 200, some [1]⟩⟩
      { project_id := "p", company_id := "c",
        content_type := PContentType.project_metadata,
        content_id := some ("p"), content := "text", metadata := none,
        embedding := none } = Except.ok [1] ∧
    keyCount
      (refreshCycle ⟨some ("k"), Except.ok ⟨true, 200, some [1]⟩⟩
        (refreshCycle ⟨some ("k"), Except.ok ⟨true, 200, some [1]⟩⟩
          [{ project_id := "p", company_id := "c",
             content_type := PContentType.project_metadata,
             content_id := some ("p"), content := "old1", metadata := none,
             embedding := [0] },
           { project_id := "p", company_id := "c",
             content_type := PContentType.project_metadata,
             content_id := some ("p"), content := "old2", metadata := none,
             embedding := [0] },
           { project_id := "p", company_id := "c",
             content_type := PContentType.project_metadata,
             content_id := some ("p"), content := "old3", metadata := none,
             embedding := [0] }]
          { project_id := "p", company_id := "c",
            content_type := PContentType.project_metadata,
            content_id := some ("p"), content := "text", metadata := none,
            embedding := none })
        { project_id := "p", company_id := "c",
          content_type := PContentType.project_metadata,
          content_id := some ("p"), content := "text", metadata := none,
          embedding := none })
      ("p") ("c") PContentType.project_metadata (some ("p")) = 1 := by
  refine ⟨by rfl, ?_⟩
  exact C1_refresh_uniqueness ⟨some ("k"), Except.ok ⟨true, 200, some [1]⟩⟩
    ⟨some ("k"), Except.ok ⟨true, 200, some [1]⟩⟩ _ _ [1] [1] rfl rfl

/-- C4: tenant scoping of search. A `company_brain_embeddings` record owned
by tenant A is never returned by `searchSimilarContent` issued for tenant
B ≠ A, whatever the similarity measure. A `project_embeddings` record owned
by company A is never returned by `searchProjectContent` issued for a
project of company B ≠ A, for any table in which every row belongs to the
company owning its project. -/
theorem C4_tenant_scoping :
    (∀ (env : EmbedEnv) (rpcError : Option String)
       (sim : List ℚ → List ℚ → ℚ) (db : List CRow) (tA tB query : String)
       (threshold : ℚ) (lim : Nat) (r : CRow),
       tA ≠ tB → r.user_id = tA →
       r ∉ (searchSimilarContent env rpcError sim db tB query threshold lim).results) ∧
    (∀ (env : EmbedEnv) (rpcError : Option String)
       (sim : List ℚ → List ℚ → ℚ) (db : List PRow)
       (owner : String → String) (tA tB pB query : String) (threshold : ℚ)
       (lim : Nat) (r : PRow),
       tA ≠ tB → r.company_id = tA →
       (∀ s ∈ db, owner s.project_id = s.company_id) → owner pB = tB →
       r ∉ (searchProjectContent env rpcError sim db pB query threshold lim).results) := by
  constructor
  · intro env rpcError sim db tA tB query threshold lim r hAB hrA hmem
    simp only [searchSimilarContent] at hmem
    cases herr : (generateEmbedding env query).error with
    | some e => rw [herr] at hmem; simp at hmem
    | none =>
      rw [herr] at hmem
      cases rpcError with
      | some e => simp at hmem
      | none =>
        simp only [matchCompanyBrainDocuments] at hmem
        have h2 := List.mem_of_mem_take hmem
        have h3 := (mem_sortByScoreDesc _ _ _).mp h2
        have h4 := (List.mem_filter.mp h3).2
        have h5 := of_decide_eq_true h4
        exact hAB (hrA ▸ h5.1 ▸ rfl)
  · intro env rpcError sim db owner tA tB pB query threshold lim r hAB hrA
      howner hpB hmem
    simp only [searchProjectContent] at hmem
    cases herr : (generateEmbedding env query).error with
    | some e => rw [herr] at hmem; simp at hmem
    | none =>
      rw [herr] at hmem
      cases rpcError with
      | some e => simp at hmem
      | none =>
        simp only [matchProjectDocuments] at hmem
        have h2 := List.mem_of_mem_take hmem
        have h3 := (mem_sortByScoreDesc _ _ _).mp h2
        have hin := (List.mem_filter.mp h3).1
        have h4 := (List.mem_filter.mp h3).2
        have h5 := of_decide_eq_true h4
        have h6 : owner r.project_id = r.company_id := howner r hin
        rw [h5.1, hpB, hrA] at h6
        exact hAB h6.symm

/-- C4 witness: concrete cross-tenant searches exclude the other tenant
record in both scopes. -/
theorem C4_tenant_scoping_witness :
    (("A" : String) ≠ "B") ∧
    ({ user_id := "A", content_type := CContentType.company_info,
       content_id := none, content := "secret", metadata := none,
       embedding := [1] } : CRow) ∉
      (searchSimilarContent ⟨some ("k"), Except.ok ⟨true, 200, some [1]⟩⟩
        none (fun _ _ => 1)
        [{ user_id := "A", content_type := CContentType.company_info,
           content_id := none, content := "secret", metadata := none,
           embedding := [1] }] ("B") ("q") 0 10).results ∧
    ({ project_id := "pA", company_id := "A",
       content_type := PContentType.document, content_id := none,
       content := "secret", metadata := none,
       embedding := [1] } : PRow) ∉
      (searchProjectContent ⟨some ("k"), Except.ok ⟨true, 200, some [1]⟩⟩
        none (fun _ _ => 1)
        [{ project_id := "pA", company_id := "A",
           content_type := PContentType.document, content_id := none,
           content := "secret", metadata := none, embedding := [1] }]
        ("pB") ("q") 0 10).results := by
  refine ⟨by decide, ?_, ?_⟩
  · exact C4_tenant_scoping.1 ⟨some ("k"), Except.ok ⟨true, 200, some [1]⟩⟩
      none (fun _ _ => 1) _ ("A") ("B") ("q") 0 10 _ (by decide) rfl
  · exact C4_tenant_scoping.2 ⟨some ("k"), Except.ok ⟨true, 200, some [1]⟩⟩
      none (fun _ _ => 1) _
      (fun pid => if pid = "pA" then ("A") else ("B"))
      ("A") ("B") ("pB") ("q") 0 10 _ (by decide) rfl
      (by intro s hs; simp at hs; rw [hs]; rfl) (by decide)

/-- C9 counterexample: the store operations perform no dimensionality check.
Two concrete `storeProjectEmbedding` calls insert caller-supplied vectors of
length 1 and length 2 into the same table; both succeed and the resulting
records do not share one embedding length. -/
theorem C9_counterexample :
    ∃ r1 ∈ (storeProjectEmbedding ⟨none, Except.error ("e")⟩ none
        (storeProjectEmbedding ⟨none, Except.error ("e")⟩ none []
          { project_id := "p", company_id := "c",
            content_type := PContentType.document, content_id := some ("d1"),
            content := "t1", metadata := none, embedding := some [1] }).1
        { project_id := "p", company_id := "c",
          content_type := PContentType.document, content_id := some ("d2"),
          content := "t2", metadata := none,
          embedding := some [1, 2] }).1,
      ∃ r2 ∈ (storeProjectEmbedding ⟨none, Except.error ("e")⟩ none
        (storeProjectEmbedding ⟨none, Except.error ("e")⟩ none []
          { project_id := "p", company_id := "c",
            content_type := PContentType.document, content_id := some ("d1"),
            content := "t1", metadata := none, embedding := some [1] }).1
        { project_id := "p", company_id := "c",
          content_type := PContentType.document, content_id := some ("d2"),
          content := "t2", metadata := none,
          embedding := some [1, 2] }).1,
      r1.embedding.length ≠ r2.embedding.length := by decide

/-- C9 amended: the store operations enforce no dimensionality. A record
whose `embedding` field is present is always inserted as-is, whatever the
length of its vector: the stored row carries exactly the supplied vector and
the operation reports success. -/
theorem C9_amended_no_dimension_check (env : EmbedEnv) (pdb : List PRow)
    (cdb : List CRow) (pdata : ProjectEmbeddingData)
    (cdata : CompanyBrainEmbedding) (v w : List ℚ)
    (hpv : pdata.embedding = some v) (hcw : cdata.embedding = some w) :
    storeProjectEmbedding env none pdb pdata =
      (pdb ++ [{ project_id := pdata.project_id,
                 company_id := pdata.company_id,
                 content_type := pdata.content_type,
                 content_id := pdata.content_id, content := pdata.content,
                 metadata := pdata.metadata, embedding := v }],
       { success := true, error := none }) ∧
    storeEmbedding env none cdb cdata =
      (cdb ++ [{ user_id := cdata.user_id,
                 content_type := cdata.content_type,
                 content_id := cdata.content_id, content := cdata.content,
                 metadata := cdata.metadata, embedding := w }],
       { success := true, error := none }) := by
  constructor
  · simp [storeProjectEmbedding, resolveProjectEmbedding, hpv]
  · simp [storeEmbedding, resolveCompanyEmbedding, hcw]

/-- C9 witness: a concrete record with a one-element vector is inserted
as-is. -/
theorem C9_amended_no_dimension_check_witness :
    (({ project_id := "p", company_id := "c",
        content_type := PContentType.document, content_id := some ("d"),
        content := "t", metadata := none,
        embedding := some [1] } : ProjectEmbeddingData).embedding = some [1]) ∧
    storeProjectEmbedding ⟨none, Except.error ("e")⟩ none []
      { project_id := "p", company_id := "c",
        content_type := PContentType.document, content_id := some ("d"),
        content := "t", metadata := none, embedding := some [1] } =
    ([{ project_id := "p", company_id := "c",
        content_type := PContentType.document, content_id := some ("d"),
        content := "t", metadata := none, embedding := [1] }],
     { success := true, error := none }) := by
  refine ⟨rfl, ?_⟩
  have h := C9_amended_no_dimension_check ⟨none, Except.error ("e")⟩ [] []
    { project_id := "p", company_id := "c",
      content_type := PContentType.document, content_id := some ("d"),
      content := "t", metadata := none, embedding := some [1] }
    { id := none, user_id := "u", content_type := CContentType.document,
      content_id := none, content := "t", metadata := none,
      embedding := some [1], created_at := none, updated_at := none }
    [1] [1] rfl rfl
  simpa using h.1

/-- C8 counterexample: the sentence-based chunker does not return an empty
sequence on empty input — `text.length <= maxLength` short-circuits and
returns the whole (empty) text as a single chunk. -/
theorem C8_counterexample :
    chunkTextS [] 1000 = [[]] ∧ chunkTextS [] 1000 ≠ [] := by
  refine ⟨rfl, by simp [chunkTextS]⟩

/-- C8 amended: for every `maxChunkSize`, the paragraph-based chunkers
return an empty sequence on empty input, while the sentence-based chunker
returns one chunk holding the empty string. -/
theorem C8_amended_empty_input (max : Nat) :
    chunkText [] max = [] ∧ chunkProjectText [] max = [] ∧
    chunkTextS [] max = [[]] := by
  have hpar : chunkLoop max (splitNN []) [] = [] := by
    show chunkLoop max [[]] [] = []
    simp only [chunkLoop]
    rw [if_neg (by simp)]
    simp only [List.nil_append, chunkLoop]
    rw [if_neg (by simp [show trim nn = [] from by decide])]
  refine ⟨hpar, hpar, ?_⟩
  simp [chunkTextS]

/-- C6 counterexample: with `maxChunkSize = 3`, the sentence-based chunker
applied to `"abc. de"` produces the chunk `"abc."` of length 4 — it exceeds
the bound although no single sentence of the input does (the `". "`
separator is appended after the length check). -/
theorem C6_counterexample :
    ∃ c ∈ chunkTextS ("abc. de".toList) 3,
      3 < c.length ∧ ∀ s ∈ splitSent ("abc. de".toList), s.length ≤ 3 := by
  decide

/-- C6 amended: every chunk of the paragraph-based chunker has length at
most `maxChunkSize`, except a chunk holding a single paragraph that itself
exceeds the bound. Every chunk of the sentence-based chunker has length at
most `maxChunkSize + 1` (the appended separator can push a chunk one
character over), except a chunk built from a single sentence that itself
exceeds the bound. -/
theorem C6_amended_chunk_bounds :
    (∀ (text : List Char) (max : Nat) (c : List Char),
       c ∈ chunkText text max →
       c.length ≤ max ∨ ∃ p ∈ splitNN text, max < p.length ∧ c = trim p) ∧
    (∀ (text : List Char) (max : Nat) (c : List Char),
       c ∈ chunkTextS text max →
       c.length ≤ max + 1 ∨
         ∃ s ∈ splitSent text, max < s.length ∧ c = trim (s ++ dotSpace)) := by
  constructor
  · intro text max c hc
    exact chunkLoop_size max (splitNN text) (splitNN text) [] (fun p hp => hp)
      (Or.inl rfl) c hc
  · intro text max c hc
    unfold chunkTextS at hc
    by_cases hlen : text.length ≤ max
    · rw [if_pos hlen] at hc
      simp at hc
      subst hc
      exact Or.inl (by omega)
    · rw [if_neg hlen] at hc
      exact chunkLoopS_size max (splitSent text) (splitSent text) []
        (fun s hs => hs) (Or.inl rfl) c hc

/-- C6 witness: both bounds evaluated at a concrete in-bound input. -/
theorem C6_amended_chunk_bounds_witness :
    ("ab".toList ∈ chunkText ("ab".toList) 10 ∧
      (("ab".toList : List Char).length ≤ 10 ∨
        ∃ p ∈ splitNN ("ab".toList), 10 < p.length ∧ "ab".toList = trim p)) ∧
    ("ab".toList ∈ chunkTextS ("ab".toList) 10 ∧
      (("ab".toList : List Char).length ≤ 10 + 1 ∨
        ∃ s ∈ splitSent ("ab".toList), 10 < s.length ∧
          "ab".toList = trim (s ++ dotSpace))) :=
  ⟨⟨by decide, C6_amended_chunk_bounds.1 _ 10 _ (by decide)⟩,
   ⟨by decide, C6_amended_chunk_bounds.2 _ 10 _ (by decide)⟩⟩

/-- C7 counterexample: chunking trims each chunk, so leading or trailing
whitespace inside a paragraph is lost — rejoining the chunks of `" a"` gives
`"a"`, not the original text. -/
theorem C7_counterexample :
    joinNN (chunkProjectText (" a".toList) 1000) ≠ " a".toList := by decide

/-- C7 amended: for every input text whose blank-line-separated paragraphs
are all nonempty and free of leading and trailing whitespace, concatenating
the chunks of the paragraph-based chunkers, rejoined with the original
`"\n\n"` separator, reproduces the input text exactly. -/
theorem C7_amended_roundtrip (text : List Char) (max : Nat)
    (h : ∀ q ∈ splitNN text, goodPar q) :
    joinNN (chunkText text max) = text ∧
    joinNN (chunkProjectText text max) = text :=
  ⟨joinNN_chunkText max h, joinNN_chunkText max h⟩

/-- C7 witness: a concrete two-paragraph text with clean paragraphs
round-trips through the chunker. -/
theorem C7_amended_roundtrip_witness :
    (∀ q ∈ splitNN ("aaa\n\nbbb".toList), goodPar q) ∧
    joinNN (chunkText ("aaa\n\nbbb".toList) 4) = "aaa\n\nbbb".toList :=
  ⟨by decide, (C7_amended_roundtrip _ 4 (by decide)).1⟩

lemma sweepProjects_append (embed : String → Except String (List ℚ))
    (metadataOf : String → Option ProjectMetadataR)
    (documentsOf : String → Option (List ProjectDocumentR))
    (pre rest : List ProjectR) :
    ∀ (db : List PRow) (mc dc : Nat) (db1 : List PRow) (mc1 dc1 : Nat),
    sweepProjects embed metadataOf documentsOf pre db mc dc =
      Except.ok (db1, mc1, dc1) →
    sweepProjects embed metadataOf documentsOf (pre ++ rest) db mc dc =
      sweepProjects embed metadataOf documentsOf rest db1 mc1 dc1 := by
  induction pre with
  | nil =>
    intro db mc dc db1 mc1 dc1 h
    simp only [sweepProjects] at h
    obtain ⟨h1, h2, h3⟩ := by simpa using h
    subst h1; subst h2; subst h3
    simp
  | cons p ps ih =>
    intro db mc dc db1 mc1 dc1 h
    simp only [sweepProjects] at h ⊢
    cases hstep : sweepProject embed metadataOf documentsOf p db mc dc with
    | error x => rw [hstep] at h; exact absurd h (by simp)
    | ok t =>
      rw [hstep] at h
      obtain ⟨db2, mc2, dc2⟩ := t
      exact ih db2 mc2 dc2 db1 mc1 dc1 h

lemma processBrains_append (embed : String → Except String (List ℚ))
    (pre rest : List CompanyBrainR) :
    ∀ (db db1 : List CRow),
    processBrains embed pre db = Except.ok db1 →
    processBrains embed (pre ++ rest) db = processBrains embed rest db1 := by
  induction pre with
  | nil =>
    intro db db1 h
    simp only [processBrains] at h
    obtain rfl : db = db1 := by simpa using h
    simp
  | cons b bs ih =>
    intro db db1 h
    simp only [processBrains] at h ⊢
    cases hstep : processBrain embed b db with
    | error x => rw [hstep] at h; exact absurd h (by simp)
    | ok db2 =>
      rw [hstep] at h
      exact ih db2 db1 h

/-- C5 amended: in both batch regeneration handlers a failure while
processing one entity is caught only by the single top-level try/catch: the
sweep aborts at the failing entity, the handler answers with an error
response carrying no aggregate counts, and — since the final state and
response do not depend on the entities after the failing one — none of the
remaining entities is processed. -/
theorem C5_amended_sweep_aborts :
    (∀ (embed : String → Except String (List ℚ))
       (metadataOf : String → Option ProjectMetadataR)
       (documentsOf : String → Option (List ProjectDocumentR))
       (pre : List ProjectR) (p : ProjectR) (post : List ProjectR)
       (db db1 : List PRow) (mc1 dc1 : Nat) (e : String) (db2 : List PRow)
       (auth key : String),
       sweepProjects embed metadataOf documentsOf pre db 0 0 =
         Except.ok (db1, mc1, dc1) →
       sweepProject embed metadataOf documentsOf p db1 mc1 dc1 =
         Except.error (e, db2) →
       regenerateProjectEmbeddings (some auth) (some key)
         (Except.ok (pre ++ p :: post)) embed metadataOf documentsOf db =
         (ProjectRegenResponse.serverError e, db2)) ∧
    (∀ (embed : String → Except String (List ℚ))
       (pre : List CompanyBrainR) (b : CompanyBrainR)
       (post : List CompanyBrainR)
       (documentsResult : Except String (List BrainDocumentR))
       (db db1 : List CRow) (e : String) (db2 : List CRow) (auth key : String),
       processBrains embed pre db = Except.ok db1 →
       processBrain embed b db1 = Except.error (e, db2) →
       regenerateCompanyEmbeddings (some auth) (some key)
         (Except.ok (pre ++ b :: post)) documentsResult embed db =
         (CompanyRegenResponse.serverError e, db2)) := by
  constructor
  · intro embed metadataOf documentsOf pre p post db db1 mc1 dc1 e db2
      auth key hpre hfail
    simp only [regenerateProjectEmbeddings]
    rw [sweepProjects_append embed metadataOf documentsOf pre (p :: post)
      db 0 0 db1 mc1 dc1 hpre]
    simp only [sweepProjects]
    rw [hfail]
  · intro embed pre b post documentsResult db db1 e db2 auth key hpre hfail
    simp only [regenerateCompanyEmbeddings]
    rw [processBrains_append embed pre (b :: post) db db1 hpre]
    simp only [processBrains]
    rw [hfail]

/-- Concrete sweep instance: first project of the failing run. -/
def cexProject1 : ProjectR :=
  { id := "p1", company_id := "A", project_name := "P1name",
    status := "active" }

/-- Concrete sweep instance: second project, which would succeed. -/
def cexProject2 : ProjectR :=
  { id := "p2", company_id := "B", project_name := "P2name",
    status := "active" }

/-- Concrete metadata row with only required fields. -/
def cexMeta (pid cid : String) : ProjectMetadataR :=
  { id := pid ++ "m", project_id := pid, company_id := cid,
    project_description := none, project_goals := none,
    target_audience := none, budget_range := none, timeline := none,
    tech_stack := none, key_features := none, key_goals := none,
    success_metrics := none, constraints := none,
    additional_notes := none }

/-- Concrete embedding outcome: the provider rejects the first project
metadata content and accepts everything else. -/
def cexEmbed (s : String) : Except String (List ℚ) :=
  if s = "Project: P1name" then Except.error ("Gemini API error: Bad Request")
  else Except.ok [1]

/-- Concrete metadata lookup. -/
def cexMetadataOf (pid : String) : Option ProjectMetadataR :=
  if pid = "p1" then some (cexMeta ("p1") ("A"))
  else if pid = "p2" then some (cexMeta ("p2") ("B")) else none

/-- Concrete document lookup: no documents. -/
def cexDocumentsOf (_pid : String) : Option (List ProjectDocumentR) :=
  some []

/-- A pre-existing metadata embedding row. -/
def cexOldRow (pid cid : String) : PRow :=
  { project_id := pid, company_id := cid,
    content_type := PContentType.project_metadata, content_id := some pid,
    content := "old", metadata := none, embedding := [0] }

/-- C5 counterexample: with two projects whose metadata both exist and an
embedding provider failing only on the first, the project regeneration
handler answers with a 500-style error response carrying no counts; the
second project is left untouched (its stale row survives, no fresh row is
inserted), so the sweep did not continue past the failing entity. -/
theorem C5_counterexample :
    regenerateProjectEmbeddings (some ("Bearer token")) (some ("key"))
      (Except.ok [cexProject1, cexProject2]) cexEmbed cexMetadataOf
      cexDocumentsOf [cexOldRow ("p1") ("A"), cexOldRow ("p2") ("B")] =
    (ProjectRegenResponse.serverError ("Gemini API error: Bad Request"),
      [cexOldRow ("p2") ("B")]) := by decide

/-- C5 witness: the amended theorem applied to the concrete failing run and
to a one-brain company run whose only brain fails. -/
theorem C5_amended_sweep_aborts_witness :
    (sweepProjects cexEmbed cexMetadataOf cexDocumentsOf []
        [cexOldRow ("p1") ("A"), cexOldRow ("p2") ("B")] 0 0 =
      Except.ok ([cexOldRow ("p1") ("A"), cexOldRow ("p2") ("B")], 0, 0)) ∧
    (sweepProject cexEmbed cexMetadataOf cexDocumentsOf cexProject1
        [cexOldRow ("p1") ("A"), cexOldRow ("p2") ("B")] 0 0 =
      Except.error (("Gemini API error: Bad Request"),
        [cexOldRow ("p2") ("B")])) ∧
    regenerateProjectEmbeddings (some ("a")) (some ("k"))
      (Except.ok ([] ++ cexProject1 :: [cexProject2])) cexEmbed cexMetadataOf
      cexDocumentsOf [cexOldRow ("p1") ("A"), cexOldRow ("p2") ("B")] =
      (ProjectRegenResponse.serverError ("Gemini API error: Bad Request"),
        [cexOldRow ("p2") ("B")]) ∧
    regenerateCompanyEmbeddings (some ("a")) (some ("k"))
      (Except.ok ([] ++
        ({ id := "b1", user_id := "u1", company_name := some ("Acme"),
           industry := none, company_size := none, target_market := none,
           key_products := none, unique_value_prop := none,
           additional_context := none } : CompanyBrainR) :: []))
      (Except.ok []) (fun s => if s = "Company: Acme"
        then Except.error ("boom") else Except.ok [1]) [] =
      (CompanyRegenResponse.serverError ("boom"), []) := by
  refine ⟨rfl, rfl, ?_, ?_⟩
  · exact C5_amended_sweep_aborts.1 cexEmbed cexMetadataOf cexDocumentsOf
      [] cexProject1 [cexProject2]
      [cexOldRow ("p1") ("A"), cexOldRow ("p2") ("B")]
      [cexOldRow ("p1") ("A"), cexOldRow ("p2") ("B")] 0 0
      ("Gemini API error: Bad Request") [cexOldRow ("p2") ("B")]
      ("a") ("k") rfl rfl
  · exact C5_amended_sweep_aborts.2
      (fun s => if s = "Company: Acme" then Except.error ("boom")
        else Except.ok [1])
      [] { id := "b1", user_id := "u1", company_name := some ("Acme"),
           industry := none, company_size := none, target_market := none,
           key_products := none, unique_value_prop := none,
           additional_context := none } [] (Except.ok []) [] [] ("boom") []
      ("a") ("k") rfl rfl
